import Mathlib

/-!
Verification development for the AP-Help sync server (`server.js`).

The server keeps a single in-memory document `{courses, users, communityNotes,
analytics}` and exposes CRUD handlers over it.  We embed the document as the
`Store` structure and each HTTP handler as a pure function
`Store → args → Store × HResp α`: the returned store is the persisted state
and `HResp` carries either the JSON success payload or `(status, error)`.

Modelling decisions (all traced to the JavaScript source):
* Courses are association lists `String ⤳ JVal` because `PUT /api/courses/:id`
  does `Object.assign(course, req.body)`, merging arbitrary body fields.
* Notes and users have a fixed shape in the code, so they are structures.
* JS numbers are modelled as `ℚ`; the rating mean `total / ratings.length`
  becomes exact rational division.
* A request-body field that may be absent is an `Option`; JS truthiness on a
  string is `≠ ""` (for an absent field: falsy), on a number it is `≠ 0`.
* `array.find(pred)` is `List.find?`, and mutating the found element in place
  is `updateFirst` (only the first match is aliased by the JS `find`).
-/

namespace APHelp

/-- JSON values, used for course objects and for JSON response objects whose
exact key set matters (e.g. the password-stripped user view). -/
inductive JVal where
  | str : String → JVal
  | num : ℚ → JVal
  | bool : Bool → JVal
  | null : JVal
  | arr : List JVal → JVal
  | obj : List (String × JVal) → JVal

/-- A JSON object as an association list (keys in insertion order). -/
abbrev JObj := List (String × JVal)

/-- Property read `o.k` (first binding wins, as in a well-formed JS object). -/
def getKey (o : JObj) (k : String) : Option JVal :=
  (o.find? (fun p => p.1 == k)).map (fun p => p.2)

/-- Property write `o.k = v`: overwrite in place if the key exists (keeping
its position, as JS assignment does), otherwise append. -/
def setKey (o : JObj) (k : String) (v : JVal) : JObj :=
  if o.any (fun p => p.1 == k) then
    o.map (fun p => if p.1 == k then (k, v) else p)
  else o ++ [(k, v)]

/-- Embedding of `Object.assign(target, body)`: copy the body's bindings into the target
in order. -/
def objAssign (target body : JObj) : JObj :=
  body.foldl (fun acc p => setKey acc p.1 p.2) target

/-- One entry of a note's `ratings` array: `{userId, rating}`. -/
structure Rating where
  userId : String
  rating : ℚ
deriving DecidableEq, Repr

/-- A community note as created by `POST /api/notes`. -/
structure Note where
  id : String
  courseId : String
  title : String
  content : String
  author : String
  authorId : String
  createdAt : String
  downloads : ℕ
  ratings : List Rating
  averageRating : ℚ
deriving DecidableEq, Repr

/-- A user record as created by `POST /api/auth/signup` (plaintext password). -/
structure User where
  id : String
  email : String
  password : String
  name : String
  createdAt : String
deriving DecidableEq, Repr

/-- The `analytics` slot of the document: `{sessions: []}`, never touched. -/
structure Analytics where
  sessions : List JVal

/-- The whole persisted document. -/
structure Store where
  courses : List JObj
  users : List User
  communityNotes : List Note
  analytics : Analytics

/-- Handler outcome: `ok` is the 200 JSON payload, `err status msg` is
`res.status(status).json({error: msg})`. -/
inductive HResp (α : Type) where
  | ok : α → HResp α
  | err : ℕ → String → HResp α
deriving DecidableEq, Repr

/-- Replace the first element satisfying `p` by its image under `f`
(mutation through the alias returned by JS `array.find`). -/
def updateFirst (p : α → Bool) (f : α → α) : List α → List α
  | [] => []
  | x :: xs => if p x then f x :: xs else x :: updateFirst p f xs

/-- JS truthiness of an optional string field: absent and `""` are falsy. -/
def truthyS : Option String → Bool
  | none => false
  | some s => !(s == "")

/-- Test `course.id === id` for a course stored as a JSON object: the `id`
property must be the string `id` (strict equality, no coercion). -/
def idMatches (c : JObj) (id : String) : Bool :=
  match getKey c "id" with
  | some (.str s) => s == id
  | _ => false

/-- Response shape of `GET /api/data`. -/
structure DataResp where
  courses : List JObj
  communityNotes : List Note
  users : List JObj
  analytics : Analytics

/-- The per-user projection `u => ({ id: u.id, name: u.name, email: u.email })`
used by `GET /api/data`. -/
def userView (u : User) : JObj :=
  [("id", .str u.id), ("name", .str u.name), ("email", .str u.email)]

/-- Handler `GET /api/data`: returns courses, communityNotes, mapped users, analytics. -/
def getData (s : Store) : DataResp :=
  { courses := s.courses
    communityNotes := s.communityNotes
    users := s.users.map userView
    analytics := s.analytics }

/-- Handler `PUT /api/courses/:id`: find the course by id (404 if absent), then
`Object.assign(course, req.body)`, persist, and return the updated course. -/
def putCourse (s : Store) (id : String) (body : JObj) : Store × HResp JObj :=
  match s.courses.find? (fun c => idMatches c id) with
  | none => (s, .err 404 "Not found")
  | some c =>
    let c' := objAssign c body
    ({ s with courses := updateFirst (fun d => idMatches d id) (fun _ => c') s.courses },
     .ok c')

/-- Body of `POST /api/notes` (each field may be absent). -/
structure NoteBody where
  courseId : Option String
  title : Option String
  content : Option String
  authorId : Option String

/-- Handler `POST /api/notes`: 400 if any of the four fields is falsy, 400 if the
author does not resolve to a user, otherwise append a fresh note.  The
generated `nanoid()` and `new Date().toISOString()` are passed in as
`newId` and `now`. -/
def createNote (s : Store) (b : NoteBody) (newId now : String) : Store × HResp Note :=
  match b.courseId, b.title, b.content, b.authorId with
  | some courseId, some title, some content, some authorId =>
    if courseId = "" ∨ title = "" ∨ content = "" ∨ authorId = "" then
      (s, .err 400 "Missing fields")
    else
      match s.users.find? (fun u => u.id == authorId) with
      | none => (s, .err 400 "Invalid author")
      | some user =>
        let note : Note :=
          { id := newId, courseId := courseId, title := title, content := content
            author := user.name, authorId := authorId, createdAt := now
            downloads := 0, ratings := [], averageRating := 0 }
        ({ s with communityNotes := s.communityNotes ++ [note] }, .ok note)
  | _, _, _, _ => (s, .err 400 "Missing fields")

/-- Embedding of `if (field) note.field = field`: overwrite only when the body field is
present and truthy (a provided empty string is skipped). -/
def applyField (field : Option String) (old : String) : String :=
  match field with
  | some t => if t = "" then old else t
  | none => old

/-- The edit the note handler applies to the found note:
`if (title) note.title = title; if (content) note.content = content`. -/
def noteEdit (note : Note) (title content : Option String) : Note :=
  { note with
    title := applyField title note.title
    content := applyField content note.content }

/-- Handler `PUT /api/notes/:id`: 404 if the note is absent; 403 unless the body's
`authorId` equals the note's author or `forceDev` is truthy; otherwise
overwrite title/content when provided and truthy, persist, return the note. -/
def putNote (s : Store) (id : String) (title content authorId : Option String)
    (forceDev : Bool) : Store × HResp Note :=
  match s.communityNotes.find? (fun n => n.id == id) with
  | none => (s, .err 404 "Note not found")
  | some note =>
    if authorId ≠ some note.authorId ∧ forceDev = false then
      (s, .err 403 "Not allowed")
    else
      let note' := noteEdit note title content
      ({ s with communityNotes := updateFirst (fun n => n.id == id) (fun _ => note') s.communityNotes },
       .ok note')

/-- Handler `DELETE /api/notes/:id`: 404 if absent; 403 unless `forceDev` or author
match; otherwise filter out every note with that id and return success. -/
def deleteNote (s : Store) (id : String) (authorId : Option String)
    (forceDev : Bool) : Store × HResp Bool :=
  match s.communityNotes.find? (fun n => n.id == id) with
  | none => (s, .err 404 "Not found")
  | some note =>
    if forceDev = false ∧ authorId ≠ some note.authorId then
      (s, .err 403 "Not allowed")
    else
      ({ s with communityNotes := s.communityNotes.filter (fun n => !(n.id == id)) },
       .ok true)

/-- Upsert of `{userId, rating}` into a note's ratings: if an entry for the
user exists, mutate the first such entry in place, else push a new entry. -/
def upsertRating (ratings : List Rating) (uid : String) (r : ℚ) : List Rating :=
  if ratings.any (fun x => x.userId == uid) then
    updateFirst (fun x => x.userId == uid) (fun x => { x with rating := r }) ratings
  else ratings ++ [⟨uid, r⟩]

/-- The mutation the rate handler applies to the found note: upsert the
rating, then `averageRating = total / ratings.length` with
`total = ratings.reduce((s, r) => s + r.rating, 0)`. -/
def rateUpd (note : Note) (uid : String) (r : ℚ) : Note :=
  let ratings' := upsertRating note.ratings uid r
  let total := ratings'.foldl (fun acc x => acc + x.rating) 0
  { note with ratings := ratings', averageRating := total / (ratings'.length : ℚ) }

/-- Handler `POST /api/notes/:id/rate`: 400 when `userId` or `rating` is falsy (so
rating 0 is rejected), 404 when the note is absent; otherwise apply
`rateUpd` to the found note, persist, and answer
`{averageRating, ratingsCount}` read back from the updated note. -/
def ratePost (s : Store) (id : String) (userId : Option String)
    (rating : Option ℚ) : Store × HResp (ℚ × ℕ) :=
  match userId, rating with
  | some uid, some r =>
    if uid = "" ∨ r = 0 then (s, .err 400 "Missing userId or rating")
    else
      match s.communityNotes.find? (fun n => n.id == id) with
      | none => (s, .err 404 "Note not found")
      | some note =>
        let note' := rateUpd note uid r
        ({ s with communityNotes := updateFirst (fun n => n.id == id) (fun _ => note') s.communityNotes },
         .ok (note'.averageRating, note'.ratings.length))
  | _, _ => (s, .err 400 "Missing userId or rating")

/-- Handler `POST /api/auth/signup`: 400 when a field is falsy, 400 `"Email exists"`
when some user already has the email, otherwise append the user and answer
the JSON object `{id, email, name}` (no password key). -/
def signup (s : Store) (email password name : Option String)
    (newId now : String) : Store × HResp JObj :=
  match email, password, name with
  | some e, some p, some nm =>
    if e = "" ∨ p = "" ∨ nm = "" then (s, .err 400 "Missing fields")
    else
      match s.users.find? (fun u => u.email == e) with
      | some _ => (s, .err 400 "Email exists")
      | none =>
        let user : User := { id := newId, email := e, password := p, name := nm, createdAt := now }
        ({ s with users := s.users ++ [user] },
         .ok [("id", .str user.id), ("email", .str user.email), ("name", .str user.name)])
  | _, _, _ => (s, .err 400 "Missing fields")

/-- One signup request with its generated id and timestamp. -/
structure SignupReq where
  email : Option String
  password : Option String
  name : Option String
  newId : String
  now : String

/-- The store after a sequence of signup requests (responses discarded). -/
def signupMany (s : Store) (reqs : List SignupReq) : Store :=
  reqs.foldl (fun st q => (signup st q.email q.password q.name q.newId q.now).1) s

/-! ### Concrete data for scenario checks -/

/-- A concrete user for the scenario checks. -/
def demoUser : User :=
  { id := "u1", email := "a@b.com", password := "x", name := "A", createdAt := "t0" }

/-- A concrete freshly created note (no ratings yet). -/
def demoNote : Note :=
  { id := "n1", courseId := "c1", title := "T", content := "body", author := "A"
    authorId := "u1", createdAt := "t0", downloads := 0, ratings := [], averageRating := 0 }

/-- A concrete store holding one user and one unrated note. -/
def demoStore : Store :=
  { courses := [], users := [demoUser], communityNotes := [demoNote], analytics := ⟨[]⟩ }

/-- State of `demoNote` after user `u1` rates it 5. -/
def demoNote5 : Note := { demoNote with ratings := [⟨"u1", 5⟩], averageRating := 5 }

/-- State of `demoStore` after user `u1` rates the note 5. -/
def demoStore5 : Store := { demoStore with communityNotes := [demoNote5] }

/-- State of `demoNote` after user `u1` re-rates it 3 (entry replaced in place). -/
def demoNote3 : Note := { demoNote with ratings := [⟨"u1", 3⟩], averageRating := 3 }

/-- State of `demoStore` after user `u1` rates 5 and then re-rates 3. -/
def demoStore3 : Store := { demoStore with communityNotes := [demoNote3] }

/-- A concrete empty store (fresh `db.json` before seeding). -/
def emptyStore : Store :=
  { courses := [], users := [], communityNotes := [], analytics := ⟨[]⟩ }

/-- A concrete course object for the course-update scenario. -/
def courseC : JObj := [("id", .str "c9"), ("title", .str "Old")]

/-- A concrete store holding just `courseC`. -/
def storeC : Store :=
  { courses := [courseC], users := [], communityNotes := [], analytics := ⟨[]⟩ }

/-! ### Helper lemmas -/

theorem length_updateFirst (p : α → Bool) (f : α → α) (l : List α) :
    (updateFirst p f l).length = l.length := by
  induction l with
  | nil => rfl
  | cons x xs ih =>
    simp only [updateFirst]
    split <;> simp [ih]

theorem find?_updateFirst (p : α → Bool) (f : α → α) (l : List α) (x : α)
    (h : l.find? p = some x) (hf : p (f x) = true) :
    (updateFirst p f l).find? p = some (f x) := by
  induction l with
  | nil => simp at h
  | cons a as ih =>
    rw [List.find?_cons] at h
    cases hpa : p a with
    | true =>
      rw [hpa] at h
      cases h
      simp [updateFirst, hpa, List.find?_cons, hf]
    | false =>
      rw [hpa] at h
      simp [updateFirst, hpa, List.find?_cons, ih h]

theorem getElem?_updateFirst (p : α → Bool) (f : α → α) (l : List α) (i : ℕ) (m : α)
    (hm : l[i]? = some m) (hp : p m = false) :
    (updateFirst p f l)[i]? = some m := by
  induction l generalizing i with
  | nil => simp at hm
  | cons a as ih =>
    cases i with
    | zero =>
      simp only [List.getElem?_cons_zero, Option.some.injEq] at hm
      subst hm
      simp [updateFirst, hp]
    | succ j =>
      simp only [List.getElem?_cons_succ] at hm
      simp only [updateFirst]
      split
      · simpa using hm
      · simpa using ih j hm

theorem map_updateFirst (p : α → Bool) (f : α → α) (g : α → β) (l : List α)
    (hg : ∀ x, g (f x) = g x) : (updateFirst p f l).map g = l.map g := by
  induction l with
  | nil => rfl
  | cons a as ih =>
    simp only [updateFirst]
    split <;> simp [ih, hg]

theorem foldl_add_rating (l : List Rating) (c : ℚ) :
    l.foldl (fun acc x => acc + x.rating) c = c + (l.map Rating.rating).sum := by
  induction l generalizing c with
  | nil => simp
  | cons a as ih => simp [ih, add_assoc]

theorem getKey_cons (k0 : String) (v0 : JVal) (o : JObj) (k : String) :
    getKey ((k0, v0) :: o) k = if k0 = k then some v0 else getKey o k := by
  simp only [getKey, List.find?_cons]
  by_cases h : k0 = k
  · simp [h]
  · simp [h, beq_eq_false_iff_ne.mpr h]

theorem getKey_eq_none (o : JObj) (k : String) (h : k ∉ o.map Prod.fst) :
    getKey o k = none := by
  induction o with
  | nil => rfl
  | cons p o' ih =>
    simp only [List.map_cons, List.mem_cons] at h
    push_neg at h
    rw [show p = (p.1, p.2) from rfl, getKey_cons, if_neg (fun hq => h.1 hq.symm)]
    exact ih h.2

theorem getKey_append (o o2 : JObj) (k : String) :
    getKey (o ++ o2) k = (getKey o k).or (getKey o2 k) := by
  induction o with
  | nil => simp [getKey, Option.or]
  | cons p o' ih =>
    rw [List.cons_append, show p = (p.1, p.2) from rfl, getKey_cons, getKey_cons]
    by_cases h : p.1 = k
    · rw [if_pos h, if_pos h]; rfl
    · rw [if_neg h, if_neg h, ih]

theorem getKey_mapSet_self (o : JObj) (k : String) (v : JVal)
    (hany : o.any (fun p => p.1 == k) = true) :
    getKey (o.map (fun p => if p.1 == k then (k, v) else p)) k = some v := by
  induction o with
  | nil => simp at hany
  | cons p o' ih =>
    obtain ⟨k0, v0⟩ := p
    simp only [List.any_cons, Bool.or_eq_true, beq_iff_eq] at hany
    by_cases hpk : k0 = k
    · have hb : (k0 == k) = true := beq_iff_eq.mpr hpk
      simp only [List.map_cons, hb, if_true]
      rw [getKey_cons, if_pos rfl]
    · have hb : (k0 == k) = false := beq_eq_false_iff_ne.mpr hpk
      simp only [List.map_cons, hb, Bool.false_eq_true, if_false]
      rw [getKey_cons, if_neg hpk]
      rcases hany with h1 | h2
      · exact absurd h1 hpk
      · exact ih h2

theorem getKey_mapSet_other (o : JObj) (k : String) (v : JVal) (k' : String)
    (hk : k' ≠ k) :
    getKey (o.map (fun p => if p.1 == k then (k, v) else p)) k' = getKey o k' := by
  induction o with
  | nil => rfl
  | cons p o' ih =>
    obtain ⟨k0, v0⟩ := p
    by_cases hpk : k0 = k
    · have hb : (k0 == k) = true := beq_iff_eq.mpr hpk
      simp only [List.map_cons, hb, if_true]
      rw [getKey_cons, getKey_cons, if_neg (fun h => hk h.symm),
        if_neg (fun h => hk (hpk ▸ h).symm), ih]
    · have hb : (k0 == k) = false := beq_eq_false_iff_ne.mpr hpk
      simp only [List.map_cons, hb, Bool.false_eq_true, if_false]
      rw [getKey_cons, getKey_cons]
      by_cases h : k0 = k'
      · rw [if_pos h, if_pos h]
      · rw [if_neg h, if_neg h, ih]

theorem not_mem_keys_of_any_false (o : JObj) (k : String)
    (hany : o.any (fun p => p.1 == k) = false) : k ∉ o.map Prod.fst := by
  intro hmem
  rw [List.any_eq_false] at hany
  obtain ⟨p, hp, hpk⟩ := List.mem_map.mp hmem
  exact hany p hp (by simp [hpk])

theorem getKey_setKey (o : JObj) (k : String) (v : JVal) (k' : String) :
    getKey (setKey o k v) k' = if k' = k then some v else getKey o k' := by
  unfold setKey
  split
  · rename_i hany
    by_cases hk : k' = k
    · subst hk
      rw [if_pos rfl, getKey_mapSet_self o k' v hany]
    · rw [if_neg hk, getKey_mapSet_other o k v k' hk]
  · rename_i hany
    rw [getKey_append]
    by_cases hk : k' = k
    · subst hk
      rw [if_pos rfl,
        getKey_eq_none o k' (not_mem_keys_of_any_false o k' (Bool.of_not_eq_true hany)),
        getKey_cons, if_pos rfl]
      rfl
    · rw [if_neg hk, getKey_cons, if_neg (fun h => hk h.symm)]
      exact Option.or_none

theorem getKey_objAssign (c body : JObj) (hk : (body.map Prod.fst).Nodup) (k : String) :
    getKey (objAssign c body) k = (getKey body k).or (getKey c k) := by
  induction body generalizing c with
  | nil => simp [objAssign, getKey, Option.or]
  | cons p b' ih =>
    simp only [List.map_cons, List.nodup_cons] at hk
    have hstep : objAssign c (p :: b') = objAssign (setKey c p.1 p.2) b' := rfl
    rw [hstep, ih _ hk.2, show p = (p.1, p.2) from rfl, getKey_cons, getKey_setKey]
    by_cases hpk : p.1 = k
    · rw [if_pos hpk, if_pos hpk.symm, getKey_eq_none b' k (hpk ▸ hk.1)]
      rfl
    · rw [if_neg hpk, if_neg (fun h => hpk h.symm)]

theorem rateUpd_demo1 : rateUpd demoNote "u1" 5 = demoNote5 := by
  show ({ demoNote with ratings := [⟨"u1", 5⟩], averageRating := ((0 : ℚ) + 5) / ((1 : ℕ) : ℚ) } : Note) = demoNote5
  rw [show ((0 : ℚ) + 5) / ((1 : ℕ) : ℚ) = 5 by norm_num]
  rfl

theorem rateUpd_demo2 : rateUpd demoNote5 "u1" 3 = demoNote3 := by
  show ({ demoNote5 with ratings := [⟨"u1", 3⟩], averageRating := ((0 : ℚ) + 3) / ((1 : ℕ) : ℚ) } : Note) = demoNote3
  rw [show ((0 : ℚ) + 3) / ((1 : ℕ) : ℚ) = 3 by norm_num]
  rfl

theorem rate_demo_step1 :
    ratePost demoStore "n1" (some "u1") (some 5) = (demoStore5, .ok (5, 1)) := by
  show (({ demoStore with communityNotes := [rateUpd demoNote "u1" 5] },
      HResp.ok ((rateUpd demoNote "u1" 5).averageRating, (rateUpd demoNote "u1" 5).ratings.length)) :
        Store × HResp (ℚ × ℕ)) = (demoStore5, .ok (5, 1))
  rw [rateUpd_demo1]
  rfl

theorem rate_demo_step2 :
    ratePost demoStore5 "n1" (some "u1") (some 3) = (demoStore3, .ok (3, 1)) := by
  show (({ demoStore5 with communityNotes := [rateUpd demoNote5 "u1" 3] },
      HResp.ok ((rateUpd demoNote5 "u1" 3).averageRating, (rateUpd demoNote5 "u1" 3).ratings.length)) :
        Store × HResp (ℚ × ℕ)) = (demoStore3, .ok (3, 1))
  rw [rateUpd_demo2]
  rfl

/-! ### Claim theorems -/

/-- Claim C6: for every request to `POST /api/notes/:id/rate`, a rating value
of 0 is treated the same as a missing rating due to the truthiness check: the
request returns status 400 with `{error: "Missing userId or rating"}` and the
store (in particular the note's ratings) is unchanged. -/
theorem C6_rate_zero_rejected (s : Store) (id : String) (userId : Option String) :
    ratePost s id userId (some 0) = (s, .err 400 "Missing userId or rating") := by
  cases userId with
  | none => rfl
  | some uid => exact if_pos (Or.inr rfl)

/-- Claim C9: `GET /api/data` returns the courses, community notes, users and
analytics of the store, where each returned user record is the
`{id, name, email}` view: it never contains a `"password"` key, whatever
password is stored. -/
theorem C9_get_data_strips_password (s : Store) (u : User) :
    getData s = ⟨s.courses, s.communityNotes, s.users.map userView, s.analytics⟩ ∧
    getKey (userView u) "password" = none :=
  ⟨rfl, rfl⟩

/-- Claim C4: a `PUT /api/notes/:id` or `DELETE /api/notes/:id` request whose
body `authorId` differs from the note's `authorId` and whose `forceDev`
bypass flag is not set returns 403 `"Not allowed"` and leaves the store
unchanged. -/
theorem C4_non_author_forbidden (s : Store) (id : String)
    (title content authorId : Option String) (note : Note)
    (hfind : s.communityNotes.find? (fun n => n.id == id) = some note)
    (hauth : authorId ≠ some note.authorId) :
    putNote s id title content authorId false = (s, .err 403 "Not allowed") ∧
    deleteNote s id authorId false = (s, .err 403 "Not allowed") := by
  constructor
  · unfold putNote
    rw [hfind]
    exact if_pos ⟨hauth, rfl⟩
  · unfold deleteNote
    rw [hfind]
    exact if_pos ⟨rfl, hauth⟩

/-- Witness for C4 at concrete input: user `u2` may neither edit nor delete
`u1`'s note without the bypass flag. -/
theorem C4_witness :
    putNote demoStore "n1" none none (some "u2") false = (demoStore, .err 403 "Not allowed") ∧
    deleteNote demoStore "n1" (some "u2") false = (demoStore, .err 403 "Not allowed") :=
  C4_non_author_forbidden demoStore "n1" none none (some "u2") demoNote rfl (by decide)

/-- Claim C3: `POST /api/notes` returns 400 and leaves the store unchanged
when any of `courseId`, `title`, `content`, `authorId` is falsy, and also
when `authorId` does not resolve to an existing user (no note is appended in
either case). -/
theorem C3_create_note_validation (s : Store) (b : NoteBody) (newId now : String) :
    ((truthyS b.courseId = false ∨ truthyS b.title = false ∨
        truthyS b.content = false ∨ truthyS b.authorId = false) →
      createNote s b newId now = (s, .err 400 "Missing fields")) ∧
    (∀ aId, b.authorId = some aId →
      s.users.find? (fun u => u.id == aId) = none →
      (createNote s b newId now).1 = s ∧
      ((createNote s b newId now).2 = .err 400 "Missing fields" ∨
        (createNote s b newId now).2 = .err 400 "Invalid author")) := by
  obtain ⟨cid, t, ct, aid⟩ := b
  constructor
  · intro hmiss
    cases cid with
    | none => rfl
    | some c0 =>
      cases t with
      | none => rfl
      | some t0 =>
        cases ct with
        | none => rfl
        | some ct0 =>
          cases aid with
          | none => rfl
          | some a0 =>
            simp only [truthyS, Bool.not_eq_false', beq_iff_eq] at hmiss
            exact if_pos hmiss
  · intro aId haid hfind
    cases cid with
    | none => exact ⟨rfl, Or.inl rfl⟩
    | some c0 =>
      cases t with
      | none => exact ⟨rfl, Or.inl rfl⟩
      | some t0 =>
        cases ct with
        | none => exact ⟨rfl, Or.inl rfl⟩
        | some ct0 =>
          cases haid
          by_cases hvac : c0 = "" ∨ t0 = "" ∨ ct0 = "" ∨ aId = ""
          · have hcn : createNote s ⟨some c0, some t0, some ct0, some aId⟩ newId now =
                (s, .err 400 "Missing fields") := if_pos hvac
            rw [hcn]
            exact ⟨rfl, Or.inl rfl⟩
          · have hcn : createNote s ⟨some c0, some t0, some ct0, some aId⟩ newId now =
                (s, .err 400 "Invalid author") := (if_neg hvac).trans (by rw [hfind])
            rw [hcn]
            exact ⟨rfl, Or.inr rfl⟩

/-- Witness for C3 at concrete input: creating a note with the unknown author
`"ghost"` in `demoStore` yields a 400 and leaves the store unchanged. -/
theorem C3_witness :
    (createNote demoStore ⟨some "c1", some "T2", some "b2", some "ghost"⟩ "n2" "t1").1 = demoStore ∧
    ((createNote demoStore ⟨some "c1", some "T2", some "b2", some "ghost"⟩ "n2" "t1").2 =
        .err 400 "Missing fields" ∨
      (createNote demoStore ⟨some "c1", some "T2", some "b2", some "ghost"⟩ "n2" "t1").2 =
        .err 400 "Invalid author") :=
  (C3_create_note_validation demoStore ⟨some "c1", some "T2", some "b2", some "ghost"⟩
    "n2" "t1").2 "ghost" rfl (by decide)

/-- Claim C1: whenever `POST /api/notes/:id/rate` succeeds, the target note in
the resulting store has `averageRating` equal to the arithmetic mean of the
rating values currently stored in its ratings list, the response's
`averageRating` is that same value, and the response's `ratingsCount` is the
length of the ratings list. -/
theorem C1_average_is_mean (s : Store) (id : String) (userId : Option String)
    (rating : Option ℚ) (s' : Store) (avg : ℚ) (cnt : ℕ)
    (h : ratePost s id userId rating = (s', .ok (avg, cnt))) :
    ∃ n, s'.communityNotes.find? (fun m => m.id == id) = some n ∧
      n.averageRating = avg ∧
      avg = (n.ratings.map Rating.rating).sum / (n.ratings.length : ℚ) ∧
      cnt = n.ratings.length := by
  cases userId with
  | none =>
    cases rating with
    | none => exact HResp.noConfusion (congrArg Prod.snd h)
    | some r => exact HResp.noConfusion (congrArg Prod.snd h)
  | some uid =>
    cases rating with
    | none => exact HResp.noConfusion (congrArg Prod.snd h)
    | some r =>
      by_cases hc : uid = "" ∨ r = 0
      · have hr : ratePost s id (some uid) (some r) =
            (s, .err 400 "Missing userId or rating") := if_pos hc
        rw [hr] at h
        exact HResp.noConfusion (congrArg Prod.snd h)
      · cases hfind : s.communityNotes.find? (fun n => n.id == id) with
        | none =>
          have hr : ratePost s id (some uid) (some r) = (s, .err 404 "Note not found") :=
            (if_neg hc).trans (by rw [hfind])
          rw [hr] at h
          exact HResp.noConfusion (congrArg Prod.snd h)
        | some note =>
          have hr : ratePost s id (some uid) (some r) =
              ({ s with communityNotes := (updateFirst (fun n => n.id == id)
                  (fun _ => rateUpd note uid r) s.communityNotes) },
               .ok ((rateUpd note uid r).averageRating, (rateUpd note uid r).ratings.length)) :=
            (if_neg hc).trans (by rw [hfind])
          rw [hr] at h
          injection h with h1 h2
          injection h2 with h2
          injection h2 with h4 h5
          subst h1 h4 h5
          have hp0 := List.find?_some hfind
          refine ⟨rateUpd note uid r, ?_, rfl, ?_, rfl⟩
          · exact find?_updateFirst _ _ _ note hfind hp0
          · show (rateUpd note uid r).averageRating =
              ((rateUpd note uid r).ratings.map Rating.rating).sum /
                (((rateUpd note uid r).ratings.length : ℚ))
            simp [rateUpd, foldl_add_rating]

/-- Witness for C1 at concrete input: after rating `demoNote` with 5, the
stored note has average 5 and one rating. -/
theorem C1_witness :
    ∃ n, demoStore5.communityNotes.find? (fun m => m.id == "n1") = some n ∧
      n.averageRating = 5 ∧
      (5 : ℚ) = (n.ratings.map Rating.rating).sum / (n.ratings.length : ℚ) ∧
      1 = n.ratings.length :=
  C1_average_is_mean demoStore "n1" (some "u1") (some 5) demoStore5 5 1 rate_demo_step1

/-- Claim C2: a successful rating submission updates an existing entry for
the same `userId` in place: `ratingsCount` equals the previous length when
the user had already rated, and uniqueness of `userId`s in the ratings list
is preserved; concretely, rating `demoNote` with 5 then 3 by the same user
yields `averageRating = 3` and `ratingsCount = 1`. -/
theorem C2_rating_upsert (s : Store) (id uid : String) (r : ℚ) (s' : Store)
    (avg : ℚ) (cnt : ℕ)
    (h : ratePost s id (some uid) (some r) = (s', .ok (avg, cnt))) :
    (∃ n, s.communityNotes.find? (fun m => m.id == id) = some n ∧
      (n.ratings.any (fun x => x.userId == uid) = true → cnt = n.ratings.length) ∧
      ((n.ratings.map Rating.userId).Nodup →
        ∃ n', s'.communityNotes.find? (fun m => m.id == id) = some n' ∧
          (n'.ratings.map Rating.userId).Nodup ∧ n'.ratings.length = cnt)) ∧
    (ratePost (ratePost demoStore "n1" (some "u1") (some 5)).1 "n1" (some "u1") (some 3)).2 =
      .ok (3, 1) := by
  constructor
  · by_cases hc : uid = "" ∨ r = 0
    · have hr : ratePost s id (some uid) (some r) =
          (s, .err 400 "Missing userId or rating") := if_pos hc
      rw [hr] at h
      exact HResp.noConfusion (congrArg Prod.snd h)
    · cases hfind : s.communityNotes.find? (fun n => n.id == id) with
      | none =>
        have hr : ratePost s id (some uid) (some r) = (s, .err 404 "Note not found") :=
          (if_neg hc).trans (by rw [hfind])
        rw [hr] at h
        exact HResp.noConfusion (congrArg Prod.snd h)
      | some note =>
        have hr : ratePost s id (some uid) (some r) =
            ({ s with communityNotes := (updateFirst (fun n => n.id == id)
                (fun _ => rateUpd note uid r) s.communityNotes) },
             .ok ((rateUpd note uid r).averageRating, (rateUpd note uid r).ratings.length)) :=
          (if_neg hc).trans (by rw [hfind])
        rw [hr] at h
        injection h with h1 h2
        injection h2 with h2
        injection h2 with h4 h5
        subst h1 h4 h5
        have hp0 := List.find?_some hfind
        refine ⟨note, rfl, ?_, ?_⟩
        · intro hany
          show (upsertRating note.ratings uid r).length = note.ratings.length
          unfold upsertRating
          rw [if_pos hany]
          exact length_updateFirst _ _ _
        · intro hnd
          refine ⟨rateUpd note uid r, ?_, ?_, rfl⟩
          · exact find?_updateFirst _ _ _ note hfind hp0
          · show ((upsertRating note.ratings uid r).map Rating.userId).Nodup
            unfold upsertRating
            by_cases hany : note.ratings.any (fun x => x.userId == uid) = true
            · rw [if_pos hany, map_updateFirst]
              · exact hnd
              · intro x
                rfl
            · rw [if_neg hany, List.map_append]
              have huid : uid ∉ note.ratings.map Rating.userId := by
                intro hmem
                obtain ⟨x, hx, hxe⟩ := List.mem_map.mp hmem
                apply hany
                rw [List.any_eq_true]
                exact ⟨x, hx, by simp [hxe]⟩
              simp [List.nodup_append, hnd, huid]
  · rw [rate_demo_step1]
    show (ratePost demoStore5 "n1" (some "u1") (some 3)).2 = .ok (3, 1)
    rw [rate_demo_step2]

/-- Witness for C2 at concrete input: rating 5 then 3 by the same user gives
final average 3 and count 1 (the second submission replaces the first). -/
theorem C2_witness :
    (ratePost (ratePost demoStore "n1" (some "u1") (some 5)).1 "n1" (some "u1") (some 3)).2 =
      .ok (3, 1) :=
  (C2_rating_upsert demoStore5 "n1" "u1" 3 demoStore3 3 1 rate_demo_step2).2

theorem signup_step_emails_nodup (s : Store) (e p nm : Option String) (newId now : String)
    (h : (s.users.map User.email).Nodup) :
    (((signup s e p nm newId now).1).users.map User.email).Nodup := by
  cases e with
  | none => exact h
  | some e0 =>
    cases p with
    | none => exact h
    | some p0 =>
      cases nm with
      | none => exact h
      | some n0 =>
        by_cases hvac : e0 = "" ∨ p0 = "" ∨ n0 = ""
        · rw [show signup s (some e0) (some p0) (some n0) newId now =
              (s, .err 400 "Missing fields") from if_pos hvac]
          exact h
        · cases hfind : s.users.find? (fun u => u.email == e0) with
          | some u =>
            rw [show signup s (some e0) (some p0) (some n0) newId now =
                (s, .err 400 "Email exists") from (if_neg hvac).trans (by rw [hfind])]
            exact h
          | none =>
            have hr : signup s (some e0) (some p0) (some n0) newId now =
                ({ s with users := s.users ++ [⟨newId, e0, p0, n0, now⟩] },
                 .ok [("id", .str newId), ("email", .str e0), ("name", .str n0)]) :=
              (if_neg hvac).trans (by rw [hfind])
            rw [hr]
            show ((s.users ++ [(⟨newId, e0, p0, n0, now⟩ : User)]).map User.email).Nodup
            rw [List.map_append]
            have he : e0 ∉ s.users.map User.email := by
              intro hmem
              obtain ⟨u, hu, hue⟩ := List.mem_map.mp hmem
              rw [List.find?_eq_none] at hfind
              exact hfind u hu (by simp [hue])
            simp [List.nodup_append, h, he]

theorem signupMany_emails_nodup (reqs : List SignupReq) (s : Store)
    (h : (s.users.map User.email).Nodup) :
    ((signupMany s reqs).users.map User.email).Nodup := by
  induction reqs generalizing s with
  | nil => exact h
  | cons q qs ih =>
    exact ih _ (signup_step_emails_nodup s q.email q.password q.name q.newId q.now h)

/-- Claim C5: signup with truthy email, password and name and a fresh email
appends the user and answers the JSON object `{id, email, name}` (which has
no password key); signing up an already-registered email answers 400
`"Email exists"` and changes nothing; hence any sequence of signups
preserves uniqueness of stored emails. -/
theorem C5_signup_unique_email (s : Store) (e p nm : Option String) (newId now : String) :
    (∀ e0 p0 n0, e = some e0 → p = some p0 → nm = some n0 →
      e0 ≠ "" → p0 ≠ "" → n0 ≠ "" →
      s.users.find? (fun u => u.email == e0) = none →
      signup s e p nm newId now =
        ({ s with users := s.users ++ [⟨newId, e0, p0, n0, now⟩] },
         .ok [("id", .str newId), ("email", .str e0), ("name", .str n0)]) ∧
      getKey [("id", JVal.str newId), ("email", JVal.str e0), ("name", JVal.str n0)]
        "password" = none) ∧
    (∀ e0 p0 n0 u, e = some e0 → p = some p0 → nm = some n0 →
      e0 ≠ "" → p0 ≠ "" → n0 ≠ "" →
      s.users.find? (fun u' => u'.email == e0) = some u →
      signup s e p nm newId now = (s, .err 400 "Email exists")) ∧
    (∀ reqs, (s.users.map User.email).Nodup →
      ((signupMany s reqs).users.map User.email).Nodup) := by
  refine ⟨?_, ?_, ?_⟩
  · intro e0 p0 n0 he hp hn hne hnp hnn hfind
    subst he hp hn
    have hvac : ¬(e0 = "" ∨ p0 = "" ∨ n0 = "") := by
      push_neg
      exact ⟨hne, hnp, hnn⟩
    exact ⟨(if_neg hvac).trans (by rw [hfind]), rfl⟩
  · intro e0 p0 n0 u he hp hn hne hnp hnn hfind
    subst he hp hn
    have hvac : ¬(e0 = "" ∨ p0 = "" ∨ n0 = "") := by
      push_neg
      exact ⟨hne, hnp, hnn⟩
    exact (if_neg hvac).trans (by rw [hfind])
  · intro reqs h
    exact signupMany_emails_nodup reqs s h

/-- Witness for C5 at concrete input: the scenario of the spec, `a@b.com`
signing up once with 200 and the user appended, then again with 400
`"Email exists"` and nothing appended. -/
theorem C5_witness :
    signup emptyStore (some "a@b.com") (some "x") (some "A") "u1" "t0" =
      ({ emptyStore with users := [demoUser] },
       .ok [("id", .str "u1"), ("email", .str "a@b.com"), ("name", .str "A")]) ∧
    signup { emptyStore with users := [demoUser] } (some "a@b.com") (some "x") (some "A") "u2" "t1" =
      ({ emptyStore with users := [demoUser] }, .err 400 "Email exists") := by
  constructor
  · exact ((C5_signup_unique_email emptyStore (some "a@b.com") (some "x") (some "A") "u1" "t0").1
      "a@b.com" "x" "A" rfl rfl rfl (by decide) (by decide) (by decide) rfl).1
  · exact (C5_signup_unique_email { emptyStore with users := [demoUser] }
      (some "a@b.com") (some "x") (some "A") "u2" "t1").2.1
      "a@b.com" "x" "A" demoUser rfl rfl rfl (by decide) (by decide) (by decide) rfl

/-- Claim C7: for an existing course, `PUT /api/courses/:id` merges every
body field verbatim into the stored course (a provided key, including
`"id"`, overwrites; an absent key is unchanged), persists the merged course
in place, and returns it; for an unknown id it answers 404 and the store is
unchanged. -/
theorem C7_put_course_merge (s : Store) (id : String) (body : JObj) :
    (∀ c, s.courses.find? (fun d => idMatches d id) = some c →
      putCourse s id body =
        ({ s with courses := (updateFirst (fun d => idMatches d id)
            (fun _ => objAssign c body) s.courses) },
         .ok (objAssign c body)) ∧
      ((body.map Prod.fst).Nodup →
        ∀ k, getKey (objAssign c body) k = (getKey body k).or (getKey c k))) ∧
    (s.courses.find? (fun d => idMatches d id) = none →
      putCourse s id body = (s, .err 404 "Not found")) := by
  constructor
  · intro c hfind
    constructor
    · unfold putCourse
      rw [hfind]
    · intro hnd k
      exact getKey_objAssign c body hnd k
  · intro hfind
    unfold putCourse
    rw [hfind]

/-- Witness for C7 at concrete input: updating course `c9` with a body that
overwrites `title` and adds `extra` yields the merged course, and the `id`
key (absent from the body) is untouched. -/
theorem C7_witness :
    putCourse storeC "c9" [("title", JVal.str "New"), ("extra", JVal.num 1)] =
      ({ storeC with courses := [[("id", JVal.str "c9"), ("title", JVal.str "New"), ("extra", JVal.num 1)]] },
       .ok [("id", JVal.str "c9"), ("title", JVal.str "New"), ("extra", JVal.num 1)]) ∧
    getKey (objAssign courseC [("title", JVal.str "New"), ("extra", JVal.num 1)]) "id" =
      some (JVal.str "c9") :=
  ⟨((C7_put_course_merge storeC "c9" [("title", JVal.str "New"), ("extra", JVal.num 1)]).1
      courseC rfl).1,
   ((((C7_put_course_merge storeC "c9" [("title", JVal.str "New"), ("extra", JVal.num 1)]).1
      courseC rfl).2 (by decide) "id")).trans rfl⟩

/-- Counterexample to claim C8 as stated: a `PUT /api/notes/:id` by the
author providing the empty string as `title` does not overwrite the stored
title (the truthiness check `if (title)` skips it): the returned note still
has title `"T"`, not the provided `""`. -/
theorem C8_counterexample :
    (putNote demoStore "n1" (some "") none (some "u1") false).2 = .ok demoNote ∧
    demoNote.title = "T" :=
  ⟨rfl, rfl⟩

/-- Claim C8 (amended): an authorized `PUT /api/notes/:id` (author match or
bypass) overwrites the note's title with the provided title if it is
provided and truthy (non-empty), likewise the content, persists the note in
place and returns it; an unknown id yields 404. -/
theorem C8_put_note_updates (s : Store) (id : String)
    (title content authorId : Option String) (forceDev : Bool) :
    (∀ note, s.communityNotes.find? (fun n => n.id == id) = some note →
      (authorId = some note.authorId ∨ forceDev = true) →
      putNote s id title content authorId forceDev =
        ({ s with communityNotes := (updateFirst (fun n => n.id == id)
            (fun _ => noteEdit note title content) s.communityNotes) },
         .ok (noteEdit note title content))) ∧
    (s.communityNotes.find? (fun n => n.id == id) = none →
      putNote s id title content authorId forceDev = (s, .err 404 "Note not found")) := by
  constructor
  · intro note hfind hauth
    have hcond : ¬(authorId ≠ some note.authorId ∧ forceDev = false) := by
      rcases hauth with h1 | h2
      · intro hc
        exact hc.1 h1
      · intro hc
        rw [h2] at hc
        exact Bool.noConfusion hc.2
    unfold putNote
    rw [hfind]
    exact if_neg hcond
  · intro hfind
    unfold putNote
    rw [hfind]

/-- Witness for the amended C8 at concrete input: the author replaces the
title with the non-empty `"NewT"`, and the stored and returned note carry
the new title. -/
theorem C8_witness :
    putNote demoStore "n1" (some "NewT") none (some "u1") false =
      ({ demoStore with communityNotes := [{ demoNote with title := "NewT" }] },
       .ok { demoNote with title := "NewT" }) :=
  (C8_put_note_updates demoStore "n1" (some "NewT") none (some "u1") false).1
    demoNote rfl (Or.inl rfl)

/-- Claim C10: a successful `PUT /api/notes/:id` changes nothing except
possibly the target note's `title` and `content`: courses, users and
analytics are identical, the target note keeps all its other fields, the
notes list keeps its length, and every note at a position whose id differs
from the target id is unchanged. -/
theorem C10_put_note_frame (s : Store) (id : String)
    (title content authorId : Option String) (forceDev : Bool) (s' : Store) (n' : Note)
    (h : putNote s id title content authorId forceDev = (s', .ok n')) :
    s'.courses = s.courses ∧ s'.users = s.users ∧ s'.analytics = s.analytics ∧
    (∃ n, s.communityNotes.find? (fun m => m.id == id) = some n ∧
      n'.id = n.id ∧ n'.courseId = n.courseId ∧ n'.author = n.author ∧
      n'.authorId = n.authorId ∧ n'.createdAt = n.createdAt ∧
      n'.downloads = n.downloads ∧ n'.ratings = n.ratings ∧
      n'.averageRating = n.averageRating) ∧
    s'.communityNotes.length = s.communityNotes.length ∧
    (∀ (i : ℕ) (m : Note), s.communityNotes[i]? = some m → ¬ m.id = id →
      s'.communityNotes[i]? = some m) := by
  cases hfind : s.communityNotes.find? (fun n => n.id == id) with
  | none =>
    have hr : putNote s id title content authorId forceDev = (s, .err 404 "Note not found") := by
      unfold putNote
      rw [hfind]
    rw [hr] at h
    exact HResp.noConfusion (congrArg Prod.snd h)
  | some note =>
    by_cases hauth : authorId ≠ some note.authorId ∧ forceDev = false
    · have hr : putNote s id title content authorId forceDev = (s, .err 403 "Not allowed") := by
        unfold putNote
        rw [hfind]
        exact if_pos hauth
      rw [hr] at h
      exact HResp.noConfusion (congrArg Prod.snd h)
    · have hr : putNote s id title content authorId forceDev =
          ({ s with communityNotes := (updateFirst (fun n => n.id == id)
              (fun _ => noteEdit note title content) s.communityNotes) },
           .ok (noteEdit note title content)) := by
        unfold putNote
        rw [hfind]
        exact if_neg hauth
      rw [hr] at h
      injection h with h1 h2
      injection h2 with h2
      subst h1 h2
      refine ⟨rfl, rfl, rfl, ⟨note, rfl, rfl, rfl, rfl, rfl, rfl, rfl, rfl, rfl⟩,
        length_updateFirst _ _ _, ?_⟩
      intro i m him hmid
      exact getElem?_updateFirst _ _ _ i m him (by simp [hmid])

/-- Witness for C10 at concrete input: retitling `demoNote` leaves courses
and users untouched. -/
theorem C10_witness :
    ({ demoStore with communityNotes := [{ demoNote with title := "X" }] } : Store).courses =
      demoStore.courses ∧
    ({ demoStore with communityNotes := [{ demoNote with title := "X" }] } : Store).users =
      demoStore.users := by
  have h := C10_put_note_frame demoStore "n1" (some "X") none (some "u1") false
    { demoStore with communityNotes := [{ demoNote with title := "X" }] }
    { demoNote with title := "X" } rfl
  exact ⟨h.1, h.2.1⟩

end APHelp
